import Mathlib

/-!
Verification of the gradescope online-assignment export tool.

The development shallowly embeds the two Python source files
(`export.py` and `api/client.py`) into Lean:

* HTML documents (the result of `BeautifulSoup(content, "html.parser")`)
  are modelled as a tree type `Node`; the BeautifulSoup search operations
  used by the code (`find`, `select`, `get_text`, attribute access) are
  translated as total functions over that tree.
* The `requests`/`selenium` effects are modelled by explicit state records
  (files written, cookies added to the browser driver, scripts executed,
  PDF files printed, prompts shown, POST requests issued), and the network
  is modelled as explicit response values supplied to the functions.
* `json.dump`/`json.load` of the flat string-to-string cookie mapping are
  modelled by an executable serializer and parser over `List Char`.
* Python exceptions (`TypeError`, `KeyError`, `json.JSONDecodeError`,
  `AttributeError`, `RuntimeError`) are modelled with an explicit error
  type and `Except` results.
-/

namespace GS

/-! ## Basic string utilities (model of Python `in` / `str.startswith`) -/

/-- Check whether `p` is a prefix of `l` (character lists). -/
def startsWithChars : List Char → List Char → Bool
  | [], _ => true
  | _ :: _, [] => false
  | p :: ps, c :: cs => p == c && startsWithChars ps cs

/-- Check whether `pat` occurs as a contiguous substring of `l`.
Models the Python `pat in s` test on strings. -/
def hasSubChars (pat : List Char) : List Char → Bool
  | [] => startsWithChars pat []
  | c :: rest => startsWithChars pat (c :: rest) || hasSubChars pat rest

/-- Model of the Python substring test `pat in s`. -/
def strContains (s pat : String) : Bool :=
  hasSubChars pat.data s.data

/-- Split a character list on runs of whitespace, dropping empty tokens.
Models Python `str.split()` as used by BeautifulSoup for multi-valued
(`class`) attributes. -/
def wsSplitAux : List Char → List Char → List String
  | acc, [] => if acc.isEmpty then [] else [String.mk acc.reverse]
  | acc, c :: rest =>
    if c.isWhitespace then
      if acc.isEmpty then wsSplitAux [] rest
      else String.mk acc.reverse :: wsSplitAux [] rest
    else wsSplitAux (c :: acc) rest

def wsSplit (s : String) : List String := wsSplitAux [] s.data

/-! ## DOM model (result of `BeautifulSoup(content, "html.parser")`)

BeautifulSoup's lenient `html.parser` backend is total: it turns any
byte string (malformed or empty HTML included) into a document tree
without raising.  The tree is modelled by `Node`; the synthetic document
root corresponds to BeautifulSoup's `[document]` object. -/

inductive Node where
  | text (s : String)
  | elem (tag : String) (attrs : List (String × String)) (children : List Node)

/-- Attribute lookup on a tag (first occurrence wins, as in `html.parser`). -/
def attrGet (n : Node) (key : String) : Option String :=
  match n with
  | .text _ => none
  | .elem _ attrs _ => attrs.lookup key

def nodeTag : Node → Option String
  | .text _ => none
  | .elem t _ _ => some t

/-- Multi-valued class matching: BeautifulSoup matches a requested class
against the whitespace-split list of the element's `class` attribute. -/
def hasClassAttr (n : Node) (cls : String) : Bool :=
  match attrGet n "class" with
  | none => false
  | some v => (wsSplit v).contains cls

mutual

/-- All nodes of the tree in document (preorder) order. -/
def descendants : Node → List Node
  | .text s => [.text s]
  | .elem t a cs => .elem t a cs :: descendantsList cs

def descendantsList : List Node → List Node
  | [] => []
  | n :: ns => descendants n ++ descendantsList ns

end

mutual

/-- Model of BeautifulSoup `get_text()` / `.text`: concatenation of all
string descendants in document order. -/
def getText : Node → String
  | .text s => s
  | .elem _ _ cs => getTextList cs

def getTextList : List Node → String
  | [] => ""
  | n :: ns => getText n ++ getTextList ns

end

/-- Model of BeautifulSoup `find_all(pred)`: all matching nodes in
document order. -/
def bsFindAll (p : Node → Bool) (root : Node) : List Node :=
  (descendants root).filter p

/-- Model of BeautifulSoup `find(pred)`: the first matching node in
document order, or `None`. -/
def bsFind (p : Node → Bool) (root : Node) : Option Node :=
  (bsFindAll p root).head?

mutual

/-- Model of a descendant CSS selector such as `"div.cls a"`:
all nodes satisfying `self` that have a strict ancestor satisfying `anc`,
in document order.  The `inside` flag records whether a matching ancestor
has been passed. -/
def selectDesc (anc self : Node → Bool) : Bool → Node → List Node
  | _, .text _ => []
  | inside, .elem t a cs =>
    (if inside && self (.elem t a cs) then [Node.elem t a cs] else [])
      ++ selectDescList anc self (inside || anc (.elem t a cs)) cs

def selectDescList (anc self : Node → Bool) : Bool → List Node → List Node
  | _, [] => []
  | inside, n :: ns => selectDesc anc self inside n ++ selectDescList anc self inside ns

end

/-! ## Online-assignment detection (`export.py`, `is_online_assignment`) -/

/-- The marker element: a `div` whose class list contains
`"onlineAssignment"`. -/
def isOnlineAssignmentDiv (n : Node) : Bool :=
  nodeTag n == some "div" && hasClassAttr n "onlineAssignment"

/-- Model of `is_online_assignment` (export.py lines 55-61): parse the page
content and test whether a `div` with class `onlineAssignment` is found.
The parsing step (total on any string) is represented by the document
tree argument. -/
def is_online_assignment (dom : Node) : Bool :=
  (bsFind isOnlineAssignmentDiv dom).isSome

/-! ## JSON (flat string-to-string objects)

Models `json.dump` / `json.load` of the cookie dictionary
(`api/client.py` lines 56-57 and 148-149).  The serializer escapes `"`
and backslash with a backslash and control characters as `\u00XX`
(`json.dump` uses short escapes for some of these; both spellings decode
identically, and the parser accepts both).  The parser accepts exactly
the flat string-object fragment of JSON, which is all the cookie file
ever holds. -/

def hexDigitChar (n : Nat) : Char :=
  if n < 10 then Char.ofNat (48 + n) else Char.ofNat (87 + n)

def hexVal (c : Char) : Option Nat :=
  if '0' ≤ c ∧ c ≤ '9' then some (c.toNat - 48)
  else if 'a' ≤ c ∧ c ≤ 'f' then some (c.toNat - 87)
  else if 'A' ≤ c ∧ c ≤ 'F' then some (c.toNat - 55)
  else none

def escapeChar (c : Char) : List Char :=
  if c = '"' then ['\\', '"']
  else if c = '\\' then ['\\', '\\']
  else if c.toNat < 32 then
    ['\\', 'u', '0', '0', hexDigitChar (c.toNat / 16), hexDigitChar (c.toNat % 16)]
  else [c]

def escapeString (s : String) : List Char :=
  (s.data.map escapeChar).flatten

/-- A JSON string literal, quotes included. -/
def quoteChars (s : String) : List Char :=
  '"' :: escapeString s ++ ['"']

/-- The members of a JSON object, with the separators `", "` and `": "`
used by `json.dump`. -/
def jsonDumpPairs : List (String × String) → List Char
  | [] => []
  | [(k, v)] => quoteChars k ++ ':' :: ' ' :: quoteChars v
  | (k, v) :: rest => quoteChars k ++ ':' :: ' ' :: quoteChars v ++ ',' :: ' ' :: jsonDumpPairs rest

/-- Model of `json.dump` on a flat string dictionary. -/
def jsonDumpObj (m : List (String × String)) : String :=
  String.mk ('{' :: jsonDumpPairs m ++ ['}'])

/-- The value of four hex digits (a `\uXXXX` escape). -/
def hex4 (a b c d : Char) : Option Nat :=
  match hexVal a, hexVal b, hexVal c, hexVal d with
  | some x, some y, some z, some w => some (((x * 16 + y) * 16 + z) * 16 + w)
  | _, _, _, _ => none

/-- Parse the body of a JSON string literal (the opening quote already
consumed); returns the decoded characters and the input after the closing
quote. -/
def parseStringBody : List Char → Option (List Char × List Char)
  | [] => none
  | c :: rest =>
    if c = '"' then some ([], rest)
    else if c = '\\' then
      match rest with
      | [] => none
      | e :: r =>
        if e = '"' then (parseStringBody r).map (fun p => ('"' :: p.1, p.2))
        else if e = '\\' then (parseStringBody r).map (fun p => ('\\' :: p.1, p.2))
        else if e = '/' then (parseStringBody r).map (fun p => ('/' :: p.1, p.2))
        else if e = 'n' then (parseStringBody r).map (fun p => ('\n' :: p.1, p.2))
        else if e = 't' then (parseStringBody r).map (fun p => ('\t' :: p.1, p.2))
        else if e = 'r' then (parseStringBody r).map (fun p => ('\r' :: p.1, p.2))
        else if e = 'b' then (parseStringBody r).map (fun p => (Char.ofNat 8 :: p.1, p.2))
        else if e = 'f' then (parseStringBody r).map (fun p => (Char.ofNat 12 :: p.1, p.2))
        else if e = 'u' then
          match r with
          | h1 :: h2 :: h3 :: h4 :: r2 =>
            match hex4 h1 h2 h3 h4 with
            | none => none
            | some code =>
              (parseStringBody r2).map (fun p => (Char.ofNat code :: p.1, p.2))
          | _ => none
        else none
    else if c.toNat < 32 then none
    else (parseStringBody rest).map (fun p => (c :: p.1, p.2))
termination_by structural l => l

def isJsonWs (c : Char) : Bool :=
  c = ' ' || c = '\t' || c = '\n' || c = '\r'

def skipWs (l : List Char) : List Char :=
  l.dropWhile isJsonWs

/-- Parse the comma-separated members of a JSON object, stopping before
the first token that is not a further `", <member>"`.  `fuel` bounds the
number of members. -/
def parseMembers : Nat → List Char → Option (List (String × String) × List Char)
  | 0, _ => none
  | fuel + 1, l =>
    match skipWs l with
    | '"' :: r =>
      match parseStringBody r with
      | none => none
      | some (k, r1) =>
        match skipWs r1 with
        | ':' :: r2 =>
          match skipWs r2 with
          | '"' :: r3 =>
            match parseStringBody r3 with
            | none => none
            | some (v, r4) =>
              if (skipWs r4).head? = some ',' then
                (parseMembers fuel (skipWs r4).tail).map
                  (fun p => ((String.mk k, String.mk v) :: p.1, p.2))
              else some ([(String.mk k, String.mk v)], skipWs r4)
          | _ => none
        | _ => none
    | _ => none

/-- Parse a complete flat string-to-string JSON object (whole input). -/
def parseObjChars (l : List Char) : Option (List (String × String)) :=
  match skipWs l with
  | '{' :: r =>
    if (skipWs r).head? = some '}' then
      if skipWs (skipWs r).tail = [] then some [] else none
    else
      match parseMembers (r.length + 1) (skipWs r) with
      | some (ps, rest) =>
        match skipWs rest with
        | '}' :: r2 => if skipWs r2 = [] then some ps else none
        | _ => none
      | none => none
  | _ => none

/-- Model of building a Python `dict` from parsed key/value pairs:
first occurrence keeps its position, a repeated key overwrites the value
(last wins). -/
def dictInsert (acc : List (String × String)) (kv : String × String) :
    List (String × String) :=
  if acc.any (fun p => p.1 == kv.1) then
    acc.map (fun p => if p.1 == kv.1 then (p.1, kv.2) else p)
  else acc ++ [kv]

def dictOfPairs (l : List (String × String)) : List (String × String) :=
  l.foldl dictInsert []

/-- Model of `json.load` restricted to flat string objects (all the cookie
file ever contains); `none` models `json.JSONDecodeError`. -/
def jsonLoadObj (s : String) : Option (List (String × String)) :=
  (parseObjChars s.data).map dictOfPairs

/-! ## Filesystem model -/

/-- A filesystem: mapping from path to file contents. -/
def Files := List (String × String)

def readFile (fs : Files) (p : String) : Option String :=
  List.lookup p fs

def writeFile (fs : Files) (p c : String) : Files :=
  (p, c) :: (fs : List (String × String)).filter (fun q => q.1 != p)

/-- Cookie save as performed at `api/client.py` lines 146-149. -/
def saveCookies (fs : Files) (p : String) (m : List (String × String)) : Files :=
  writeFile fs p (jsonDumpObj m)

/-- Cookie load as performed at `api/client.py` lines 55-57. -/
def loadCookies (fs : Files) (p : String) : Option (List (String × String)) :=
  (readFile fs p).bind jsonLoadObj

/-! ## URL handling -/

def BASE_URL : String := "https://www.gradescope.com"

/-- Split `l` at the first occurrence of `pat`, returning the part before
and the part after the occurrence. -/
def breakAtSub (pat : List Char) : List Char → Option (List Char × List Char)
  | [] => if pat.isEmpty then some ([], []) else none
  | c :: rest =>
    if startsWithChars pat (c :: rest) then some ([], (c :: rest).drop pat.length)
    else (breakAtSub pat rest).map (fun p => (c :: p.1, p.2))

/-- The path with everything after its last slash removed (the slash is
kept). -/
def dropAfterLastSlash (p : List Char) : List Char :=
  (p.reverse.dropWhile (· ≠ '/')).reverse

/-- Model of `urllib.parse.urljoin` for the inputs this program uses:
an absolute `http(s)` base URL and a relative reference without query,
fragment or dot segments (or an absolute URL, returned as is). -/
def urljoinModel (base rel : String) : String :=
  if rel = "" then base
  else if strContains rel "://" then rel
  else
    match breakAtSub "://".data base.data with
    | none => rel
    | some (scheme, after) =>
      let auth := after.takeWhile (· ≠ '/')
      let path := after.drop auth.length
      let schemeHost : List Char := scheme ++ "://".data ++ auth
      if rel.data.head? = some '/' then String.mk (schemeHost ++ rel.data)
      else if path.isEmpty then String.mk (schemeHost ++ '/' :: rel.data)
      else String.mk (schemeHost ++ dropAfterLastSlash path ++ rel.data)

/-! ## Course-id extraction (`export.py` line 101)

Models `re.match(r".*/courses/(\d+)", course_url)`.  The pattern is
anchored at the start; `.*` is greedy and does not cross a newline, and
none of the literal characters or `\d` matches a newline either, so the
whole match lies in the first line of the input.  Backtracking of the
greedy `.*` selects the rightmost occurrence of `/courses/<digit>` there,
and the greedy `(\d+)` group is the maximal digit run following it. -/

def coursePat : List Char := ['/', 'c', 'o', 'u', 'r', 's', 'e', 's', '/']

def digitTake (l : List Char) : List Char := l.takeWhile Char.isDigit

/-- Attempt the `/courses/(\d+)` part of the pattern at the current
position. -/
def matchCoursesHere (s : List Char) : Option (List Char) :=
  if startsWithChars coursePat s then
    match s.drop coursePat.length with
    | [] => none
    | d :: rest => if d.isDigit then some (digitTake (d :: rest)) else none
  else none

/-- Rightmost successful position (the match found after maximal greedy
`.*` backtracking). -/
def findCourseIdAux : List Char → Option (List Char)
  | [] => none
  | c :: rest =>
    match findCourseIdAux rest with
    | some r => some r
    | none => matchCoursesHere (c :: rest)

/-- Model of `re.match(r".*/courses/(\d+)", url)`, returning group 1. -/
def findCourseId (url : String) : Option String :=
  (findCourseIdAux (url.data.takeWhile (· ≠ '\n'))).map String.mk

/-! ## Course URL normalization (`export.py` lines 97-113)

The interactive `while` loop is modelled on the stream of URLs the user
would supply to successive prompts: the first argument is the URL from
the initial prompt, the list holds the answers to the re-prompts.
`none` means the loop is still waiting for input when the stream runs
out; the loop itself never raises. -/

def normalizeCourseUrl : String → List String → Option String
  | url, inputs =>
    if strContains url "assignments" then some url
    else
      match findCourseId url with
      | some cid => some (urljoinModel BASE_URL ("courses/" ++ cid ++ "/assignments"))
      | none =>
        match inputs with
        | [] => none
        | next :: rest => normalizeCourseUrl next rest

/-! ## Output paths -/

/-- Model of `os.path.join(folder, name)` (POSIX, two arguments). -/
def joinPath (folder name : String) : String :=
  if name.data.head? = some '/' then name
  else if folder = "" || folder.data.getLast? = some '/' then folder ++ name
  else folder ++ "/" ++ name

/-- Model of `os.path.splitext` (POSIX): split off the extension starting
at the last dot of the final path component, except that leading dots of
that component never start an extension. -/
def splitext (p : String) : String × String :=
  let cs := p.data
  let bnRev := cs.reverse.takeWhile (· ≠ '/')
  let bn := bnRev.reverse
  let lead := bn.takeWhile (· = '.')
  let rest := bn.drop lead.length
  let afterRev := rest.reverse.takeWhile (· ≠ '.')
  if afterRev.length = rest.length then (p, "")
  else (String.mk (cs.take (cs.length - (afterRev.length + 1))),
        String.mk ('.' :: afterRev.reverse))

/-- Model of `export.py` lines 175-177: append `".pdf"` unless the
`splitext` extension is already exactly `".pdf"`. -/
def singleModeFilename (inputName : String) : String :=
  if (splitext inputName).2 ≠ ".pdf" then inputName ++ ".pdf" else inputName

/-- Model of `export.py` line 179: the single-assignment output path. -/
def singleModePdfPath (folder inputName : String) : String :=
  joinPath folder (singleModeFilename inputName)

/-! ## Login (`api/client.py`, `GradescopeWebDriver.login`) -/

/-- The Python exceptions the embedded code can raise. -/
inductive PyError where
  | typeError
  | keyError
  | jsonDecodeError
  | attributeError
  | runtimeError (msg : String)
deriving DecidableEq, Repr

/-- Outcome of `json.loads(response.content)` during cookie validation.
String field values suffice for the modelled comparisons: a non-string
`warning` value compares unequal to the expected warning string in
Python, exactly like a differing string value. -/
inductive JsonParseResult where
  | decodeError
  | obj (fields : List (String × String))
  | other
deriving Repr

/-- The GET response used to validate restored cookies:
`jsonBody` is the `json.loads` outcome and `dom` the `BeautifulSoup`
parse of the same body. -/
structure ValidationResponse where
  jsonBody : JsonParseResult
  dom : Node

/-- The login POST response. -/
structure PostResponse where
  ok : Bool
  statusCode : Nat
  dom : Node

/-- The environment a login run interacts with: the filesystem, the
optional credential environment variables, and the network responses. -/
structure LoginEnv where
  fs : Files
  emailEnv : Option String
  passwordEnv : Option String
  validationResp : ValidationResponse
  loginPageDom : Node
  postResp : PostResponse
  sessionCookies : List (String × String)

/-- Observable login state: filesystem, cookies added to the selenium
driver, URLs the driver visited, interactive prompts shown, and the
number of login POST requests issued. -/
structure LoginState where
  fs : Files
  driverCookies : List (String × String)
  visited : List String
  prompts : List String
  posts : Nat

def EXPECTED_WARNING : String := "You must be logged out to access this page."

/-- The submit control looked up at `api/client.py` line 85. -/
def isLoginSubmitInput (n : Node) : Bool :=
  nodeTag n == some "input" && attrGet n "value" == some "Log In"
    && attrGet n "type" == some "submit"

/-- Model of `api/client.py` lines 71-89: decide whether the restored
cookies represent a live session.  `.ok true` models the early `return
True`, `.ok false` falling through to password login.  Only
`json.JSONDecodeError` is caught: a JSON object without a `"warning"`
key raises `KeyError` at the subscript, and a JSON body that is not an
object raises `TypeError` there. -/
def validateSession (resp : ValidationResponse) : Except PyError Bool :=
  match resp.jsonBody with
  | .obj fields =>
    match fields.lookup "warning" with
    | none => .error .keyError
    | some w =>
      if w = EXPECTED_WARNING then .ok true
      else .ok (bsFind isLoginSubmitInput resp.dom).isNone
  | .other => .error .typeError
  | .decodeError => .ok (bsFind isLoginSubmitInput resp.dom).isNone

/-- Model of `api/client.py` lines 108-110: `soup.find("form")`, then
`form.find("input", {"name": "authenticity_token"})`, then `.get("value")`.
A missing form or missing input is `None` in Python, so the following
attribute access raises `AttributeError`. -/
def findAuthToken (dom : Node) : Except PyError (Option String) :=
  match bsFind (fun n => nodeTag n == some "form") dom with
  | none => .error .attributeError
  | some form =>
    match bsFind
        (fun n => nodeTag n == some "input" && attrGet n "name" == some "authenticity_token")
        form with
    | none => .error .attributeError
    | some tokenInput => .ok (attrGet tokenInput "value")

/-- Model of `page.select(".alert-error span")` followed by the
`"Invalid email/password combination" in span.text` test
(`api/client.py` lines 135-136). -/
def containsInvalidCreds (dom : Node) : Bool :=
  (selectDesc (fun n => hasClassAttr n "alert-error")
      (fun n => nodeTag n == some "span") false dom).any
    (fun n => strContains (getText n) "Invalid email/password combination")

/-- Model of `api/client.py` lines 91-152: the credential/POST part of
`login`, starting from the state accumulated by the cookie-restore
phase. -/
def passwordLogin (cookieFile : Option String) (env : LoginEnv) (st : LoginState) :
    LoginState × Except PyError Bool :=
  let st1 := { st with prompts := st.prompts
      ++ (if env.emailEnv.isNone then ["email"] else [])
      ++ (if env.passwordEnv.isNone then ["password"] else []) }
  match findAuthToken env.loginPageDom with
  | .error e => (st1, .error e)
  | .ok _token =>
    let st2 := { st1 with posts := st1.posts + 1 }
    if !env.postResp.ok then
      (st2, .error (.runtimeError "Failed to log in; bad status"))
    else if containsInvalidCreds env.postResp.dom then
      (st2, .error (.runtimeError "Failed to log in; invalid email/password combination."))
    else
      let st3 := { st2 with visited := st2.visited ++ [BASE_URL],
                            driverCookies := st2.driverCookies ++ env.sessionCookies }
      let st4 := match cookieFile with
        | none => st3
        | some p => { st3 with fs := saveCookies st3.fs p env.sessionCookies }
      (st4, .ok true)

/-- Model of `GradescopeWebDriver.login` (`api/client.py` lines 40-152).
The initial driver state has no cookies, no visits, no prompts and no
POSTs.  Line 51 calls `os.path.isfile(self.cookie_file)`; with
`cookie_file=None` that is `os.path.isfile(None)`, which raises
`TypeError` (`os.stat` rejects `None`, and `genericpath.isfile` catches
only `OSError` and `ValueError`). -/
def login (cookieFile : Option String) (env : LoginEnv) :
    LoginState × Except PyError Bool :=
  let st0 : LoginState := ⟨env.fs, [], [], [], 0⟩
  match cookieFile with
  | none => (st0, .error .typeError)
  | some path =>
    match readFile env.fs path with
    | none => passwordLogin cookieFile env st0
    | some contents =>
      match jsonLoadObj contents with
      | none => (st0, .error .jsonDecodeError)
      | some cookies =>
        let st1 := { st0 with visited := [BASE_URL], driverCookies := cookies }
        match validateSession env.validationResp with
        | .error e => (st1, .error e)
        | .ok true => (st1, .ok true)
        | .ok false => passwordLogin cookieFile env st1

/-! ## Export and crawl (`export.py`) -/

/-- The DOM-mutation script injected before printing (`export.py`
lines 28-31). -/
def CSS_UPDATE : String :=
  "document.body.innerHTML = document.getElementsByClassName(\"onlineAssignment\")[0].parentElement.innerHTML;\nfor (const link of document.head.getElementsByTagName(\"link\")) \x7blink.removeAttribute(\"media\");\x7d"

/-- Observable browser-driver state during export: the current page
(`driver.page_source`, parsed), the scripts executed, and the PDF files
printed. -/
structure DriverState where
  dom : Node
  scripts : List String
  printed : List String

/-- Model of `export_current_page` (`export.py` lines 64-89): if the
current page is an online assignment, inject the CSS script and print to
`folder/name.pdf`; otherwise do nothing. -/
def export_current_page (st : DriverState) (folder name : String) : DriverState :=
  if is_online_assignment st.dom then
    let st1 := { st with scripts := st.scripts ++ [CSS_UPDATE] }
    let pdf_file := joinPath folder (name ++ ".pdf")
    { st1 with printed := st1.printed ++ [pdf_file] }
  else st

/-- An assignment scraped from the listing page (`export.py` line 123). -/
structure Assignment where
  url : String
  name : String
deriving DecidableEq, Repr

/-- Model of `assignments_soup.select("div.table--primaryLink a")`. -/
def scrapeLinks (dom : Node) : List Node :=
  selectDesc (fun n => nodeTag n == some "div" && hasClassAttr n "table--primaryLink")
    (fun n => nodeTag n == some "a") false dom

/-- Model of one element of the comprehension at `export.py` line 123:
`link["href"]` raises `KeyError` when the attribute is missing. -/
def linkToAssignment (n : Node) : Except PyError Assignment :=
  match attrGet n "href" with
  | none => .error .keyError
  | some h => .ok ⟨h, getText n⟩

def linksToAssignments : List Node → Except PyError (List Assignment)
  | [] => .ok []
  | n :: ns =>
    match linkToAssignment n with
    | .error e => .error e
    | .ok a =>
      match linksToAssignments ns with
      | .error e => .error e
      | .ok as => .ok (a :: as)

def scrapeAssignments (dom : Node) : Except PyError (List Assignment) :=
  linksToAssignments (scrapeLinks dom)

/-- The outline URL built at `export.py` lines 134-135. -/
def outlineUrl (a : Assignment) : String :=
  urljoinModel (urljoinModel BASE_URL a.url ++ "/") "outline/edit"

/-- Model of `driver.visit`: the network is the page oracle `pageOf`. -/
def visitDriver (pageOf : String → Node) (st : DriverState) (url : String) : DriverState :=
  { st with dom := pageOf url }

/-- One iteration of the crawl loop (`export.py` lines 127-146). -/
def crawlStep (pageOf : String → Node) (folder : String) (st : DriverState)
    (a : Assignment) : DriverState :=
  export_current_page (visitDriver pageOf st (outlineUrl a)) folder a.name

/-- Model of `crawl_assignments` after URL normalization (`export.py`
lines 115-146): visit the listing page, scrape the assignment links, and
export each assignment in order. -/
def crawlCore (pageOf : String → Node) (folder courseUrl : String)
    (st : DriverState) : Except PyError DriverState :=
  let st1 := visitDriver pageOf st courseUrl
  match scrapeAssignments st1.dom with
  | .error e => .error e
  | .ok as => .ok (as.foldl (crawlStep pageOf folder) st1)

/-! ## Fixtures used by concrete witnesses and counterexamples -/

/-- A minimal online-assignment page. -/
def onlinePage : Node :=
  Node.elem "html" [] [Node.elem "div" [("class", "onlineAssignment big")] [Node.text "x"]]

/-- A page that is not an online assignment. -/
def plainPage : Node := Node.elem "html" [] [Node.text "nothing here"]

/-- A course-assignments listing page with two assignment links. -/
def listingPage : Node :=
  Node.elem "body" []
    [Node.elem "div" [("class", "table--primaryLink")]
       [Node.elem "a" [("href", "/courses/1/assignments/11")] [Node.text "HW 1"]],
     Node.elem "div" [("class", "table--primaryLink")]
       [Node.elem "a" [("href", "/courses/1/assignments/12")] [Node.text "HW 2"]]]

/-- A login page with the authenticity-token form. -/
def loginPage : Node :=
  Node.elem "body" []
    [Node.elem "form" []
       [Node.elem "input" [("name", "authenticity_token"), ("value", "tok123")] []]]

/-- A login POST response body announcing invalid credentials. -/
def invalidCredsPage : Node :=
  Node.elem "body" []
    [Node.elem "div" [("class", "alert alert-error")]
       [Node.elem "span" [] [Node.text "Invalid email/password combination."]]]

/-- C2 counterexample environment: the cookie file exists and holds a
valid cookie object, and the validation GET returns a body that parses
as a JSON object with no `warning` field. -/
def envC2 : LoginEnv where
  fs := [("cookies.json", jsonDumpObj [("token", "t")])]
  emailEnv := some "a@b.c"
  passwordEnv := some "pw"
  validationResp := ⟨.obj [("notice", "hello")], plainPage⟩
  loginPageDom := loginPage
  postResp := ⟨true, 200, plainPage⟩
  sessionCookies := [("signed_token", "s")]

/-- Environment for the C10 witness: restored cookies validate via the
JSON warning. -/
def envC10 : LoginEnv where
  fs := [("cookies.json", jsonDumpObj [("token", "t")])]
  emailEnv := none
  passwordEnv := none
  validationResp := ⟨.obj [("warning", EXPECTED_WARNING)], plainPage⟩
  loginPageDom := loginPage
  postResp := ⟨true, 200, plainPage⟩
  sessionCookies := [("signed_token", "s")]

/-- Environment for the C4 witness: no cookie file, a well-formed login
page, and a POST response carrying the invalid-credentials alert. -/
def envC4 : LoginEnv where
  fs := []
  emailEnv := some "a@b.c"
  passwordEnv := none
  validationResp := ⟨.decodeError, plainPage⟩
  loginPageDom := loginPage
  postResp := ⟨true, 200, invalidCredsPage⟩
  sessionCookies := [("signed_token", "s")]

/-! # Claim theorems -/

/-! ## C5: the online-assignment detector -/

/-- C5: the detector is a total Boolean function of the parsed page:
it returns `true` exactly when some node of the document is a `div`
whose class list contains `"onlineAssignment"`, and `false` otherwise
(in particular on an empty or marker-free document). -/
theorem is_online_assignment_iff_marker (dom : Node) :
    is_online_assignment dom = true ↔
      ∃ n ∈ descendants dom, isOnlineAssignmentDiv n = true := by
  unfold is_online_assignment bsFind bsFindAll
  rcases h : (descendants dom).filter isOnlineAssignmentDiv with _ | ⟨a, as⟩
  · simp only [List.head?_nil, Option.isSome_none]
    constructor
    · intro hfalse; cases hfalse
    · rintro ⟨n, hn, hp⟩
      have : n ∈ (descendants dom).filter isOnlineAssignmentDiv :=
        List.mem_filter.mpr ⟨hn, hp⟩
      rw [h] at this
      cases this
  · simp only [List.head?_cons, Option.isSome_some, true_iff]
    have : a ∈ (descendants dom).filter isOnlineAssignmentDiv := by
      rw [h]; exact List.mem_cons_self a as
    exact ⟨a, (List.mem_filter.mp this).1, (List.mem_filter.mp this).2⟩

/-! ## C7: export of a non-assignment page is a no-op -/

/-- C7: when the current page is not an online assignment,
`export_current_page` returns the driver state unchanged: no script is
executed, no PDF is printed, and no error is possible (the function is
total). -/
theorem export_current_page_noop (st : DriverState) (folder name : String)
    (h : is_online_assignment st.dom = false) :
    export_current_page st folder name = st := by
  unfold export_current_page
  rw [h]
  simp

theorem export_current_page_noop_witness :
    is_online_assignment plainPage = false ∧
      export_current_page ⟨plainPage, [], []⟩ "pdf" "hw" = ⟨plainPage, [], []⟩ :=
  ⟨by decide, export_current_page_noop ⟨plainPage, [], []⟩ "pdf" "hw" (by decide)⟩

/-! ## C3: login with `cookie_file=None` -/

/-- C3 (code evaluation at the failing input): with no cookie file path
(`cookie_file=None`, the constructor default), `login` raises `TypeError`
at `os.path.isfile(None)` before doing anything else — it does not skip
the cookie step and proceed to credential collection. -/
theorem login_none_raises_typeError (env : LoginEnv) :
    login none env = (⟨env.fs, [], [], [], 0⟩, .error .typeError) := rfl

/-! ## C2: cookie-based session validation -/

/-- C2 counterexample: a response body that parses as JSON but lacks a
`warning` field does not lead to HTML parsing — `login` raises an
uncaught `KeyError` (only `json.JSONDecodeError` is caught). -/
theorem login_json_without_warning_raises :
    (login (some "cookies.json") envC2).2 = .error .keyError := rfl

/-- C2 (amended): during cookie validation, a JSON-object body whose
`warning` equals the exact expected string makes `login` return
immediately with the loaded cookies; a body that is not valid JSON, or a
JSON object whose `warning` differs from that string, is parsed as HTML
and the session is treated as valid iff no login-submit control is
found; but a JSON-object body with no `warning` field raises `KeyError`,
and a non-object JSON body raises `TypeError`. -/
theorem validateSession_spec (resp : ValidationResponse) :
    (∀ fields, resp.jsonBody = .obj fields →
        fields.lookup "warning" = some EXPECTED_WARNING →
        validateSession resp = .ok true)
    ∧ (resp.jsonBody = .decodeError →
        validateSession resp = .ok (bsFind isLoginSubmitInput resp.dom).isNone)
    ∧ (∀ fields w, resp.jsonBody = .obj fields →
        fields.lookup "warning" = some w → w ≠ EXPECTED_WARNING →
        validateSession resp = .ok (bsFind isLoginSubmitInput resp.dom).isNone)
    ∧ (∀ fields, resp.jsonBody = .obj fields →
        fields.lookup "warning" = none → validateSession resp = .error .keyError)
    ∧ (resp.jsonBody = .other → validateSession resp = .error .typeError)
    ∧ (∀ env path contents cookies, env.validationResp = resp →
        readFile env.fs path = some contents →
        jsonLoadObj contents = some cookies →
        validateSession resp = .ok true →
        login (some path) env =
          ({ fs := env.fs, driverCookies := cookies, visited := [BASE_URL],
             prompts := [], posts := 0 }, .ok true)) := by
  obtain ⟨jb, dom⟩ := resp
  refine ⟨?_, ?_, ?_, ?_, ?_, ?_⟩
  · intro fields h hw
    subst h
    simp [validateSession, hw]
  · intro h
    subst h
    simp [validateSession]
  · intro fields w h hw hne
    subst h
    simp [validateSession, hw, hne]
  · intro fields h hw
    subst h
    simp [validateSession, hw]
  · intro h
    subst h
    simp [validateSession]
  · intro env path contents cookies hresp hread hload hvalid
    simp only [login, hread, hload, hresp, hvalid]

theorem validateSession_spec_witness :
    validateSession ⟨.obj [("warning", EXPECTED_WARNING)], plainPage⟩ = .ok true :=
  (validateSession_spec ⟨.obj [("warning", EXPECTED_WARNING)], plainPage⟩).1
    [("warning", EXPECTED_WARNING)] rfl rfl

/-! ## C10: frame of the successful cookie-restore path -/

/-- C10: when cookie validation succeeds, `login` returns immediately:
the filesystem is unchanged (the cookie file is not rewritten), no login
POST is issued, no credential prompt is shown, and the driver state
change is exactly the visit to the base URL that attaches the loaded
cookies to the browser. -/
theorem login_cookie_restore_frame (env : LoginEnv) (path contents : String)
    (cookies : List (String × String))
    (hread : readFile env.fs path = some contents)
    (hload : jsonLoadObj contents = some cookies)
    (hvalid : validateSession env.validationResp = .ok true) :
    login (some path) env =
      ({ fs := env.fs, driverCookies := cookies, visited := [BASE_URL],
         prompts := [], posts := 0 }, .ok true) := by
  simp only [login, hread, hload, hvalid]

theorem login_cookie_restore_frame_witness :
    readFile envC10.fs "cookies.json" = some (jsonDumpObj [("token", "t")]) ∧
      login (some "cookies.json") envC10 =
        ({ fs := envC10.fs, driverCookies := [("token", "t")],
           visited := [BASE_URL], prompts := [], posts := 0 }, .ok true) :=
  ⟨by decide,
   login_cookie_restore_frame envC10 "cookies.json" (jsonDumpObj [("token", "t")])
     [("token", "t")] rfl rfl rfl⟩

/-! ## C4: invalid-credential POST response -/

/-- C4: when the login POST succeeds at the HTTP level but the response
HTML contains an error-alert span mentioning
`"Invalid email/password combination"`, `login` raises the fatal
`RuntimeError`; on this path the filesystem is unchanged (no cookie file
is written) and no cookie is added to the browser driver. -/
theorem login_invalid_creds_fatal (p : String) (env : LoginEnv) (t : Option String)
    (hfile : readFile env.fs p = none)
    (htok : findAuthToken env.loginPageDom = .ok t)
    (hok : env.postResp.ok = true)
    (hspan : containsInvalidCreds env.postResp.dom = true) :
    login (some p) env =
      ({ fs := env.fs, driverCookies := [], visited := [],
         prompts := (if env.emailEnv.isNone then ["email"] else [])
           ++ (if env.passwordEnv.isNone then ["password"] else []),
         posts := 1 },
       .error (.runtimeError "Failed to log in; invalid email/password combination.")) := by
  simp only [login, hfile, passwordLogin, htok, hok, hspan]
  simp

theorem login_invalid_creds_fatal_witness :
    containsInvalidCreds envC4.postResp.dom = true ∧
      login (some "cookies.json") envC4 =
        ({ fs := [], driverCookies := [], visited := [],
           prompts := ["password"], posts := 1 },
         .error (.runtimeError "Failed to log in; invalid email/password combination.")) :=
  ⟨by decide,
   login_invalid_creds_fatal "cookies.json" envC4 (some "tok123")
     rfl rfl rfl (by decide)⟩

/-! ## C1: course URL normalization -/

theorem startsWithChars_append_self (p t : List Char) :
    startsWithChars p (p ++ t) = true := by
  induction p with
  | nil => rfl
  | cons c cs ih => simp [startsWithChars, ih]

theorem hasSubChars_head_notMem (p : Char) (ps l : List Char) (h : p ∉ l) :
    hasSubChars (p :: ps) l = false := by
  induction l with
  | nil => rfl
  | cons c rest ih =>
    have hc : p ≠ c := by
      intro hEq
      exact h (by simp [hEq])
    have ih' := ih (fun hm => h (by simp [hm]))
    simp [hasSubChars, startsWithChars, hc, ih']

theorem findCourseIdAux_append_none (l tail : List Char)
    (h : ∀ c ∈ l, c ≠ '/') (htail : findCourseIdAux tail = none) :
    findCourseIdAux (l ++ tail) = none := by
  induction l with
  | nil => simpa using htail
  | cons c l ih =>
    have hc : c ≠ '/' := h c (by simp)
    have ih' := ih (fun d hd => h d (by simp [hd]))
    simp [findCourseIdAux, matchCoursesHere, coursePat, startsWithChars, Ne.symm hc, ih']

theorem findCourseIdAux_digits_none (ds : List Char)
    (h : ∀ c ∈ ds, c.isDigit = true) : findCourseIdAux ds = none := by
  have hslash : ∀ c ∈ ds, c ≠ '/' := by
    intro c hc hEq
    have hd := h c hc
    rw [hEq] at hd
    exact absurd hd (by decide)
  simpa using findCourseIdAux_append_none ds [] hslash rfl

theorem findCourseIdAux_slash_digits (ds : List Char)
    (h : ∀ c ∈ ds, c.isDigit = true) : findCourseIdAux ('/' :: ds) = none := by
  have hds := findCourseIdAux_digits_none ds h
  simp only [findCourseIdAux, hds]
  cases ds with
  | nil => decide
  | cons d rest =>
    have hd : d.isDigit = true := h d (by simp)
    have hnc : d ≠ 'c' := by
      intro hEq
      rw [hEq] at hd
      exact absurd hd (by decide)
    simp [matchCoursesHere, coursePat, startsWithChars, Ne.symm hnc]

theorem matchCoursesHere_at (ds : List Char) (d : Char) (rest : List Char)
    (hds : ds = d :: rest) (h : ∀ c ∈ ds, c.isDigit = true) :
    matchCoursesHere (coursePat ++ ds) = some ds := by
  unfold matchCoursesHere
  rw [startsWithChars_append_self, if_pos rfl, List.drop_left]
  subst hds
  have hd : d.isDigit = true := h d (by simp)
  simp only [hd, if_pos]
  unfold digitTake
  rw [List.takeWhile_eq_self_iff.mpr h]

theorem findCourseIdAux_cons (c : Char) (rest : List Char) :
    findCourseIdAux (c :: rest)
      = match findCourseIdAux rest with
        | some r => some r
        | none => matchCoursesHere (c :: rest) := rfl

theorem findCourseIdAux_main (l1 ds : List Char)
    (hne : ds ≠ []) (h : ∀ c ∈ ds, c.isDigit = true) :
    findCourseIdAux (l1 ++ (coursePat ++ ds)) = some ds := by
  induction l1 with
  | nil =>
    obtain ⟨d, rest, rfl⟩ : ∃ d rest, ds = d :: rest := by
      cases ds with
      | nil => exact absurd rfl hne
      | cons d rest => exact ⟨d, rest, rfl⟩
    have hinner : findCourseIdAux
        ('c' :: 'o' :: 'u' :: 'r' :: 's' :: 'e' :: 's' :: '/' :: (d :: rest)) = none :=
      findCourseIdAux_append_none ['c', 'o', 'u', 'r', 's', 'e', 's'] ('/' :: (d :: rest))
        (by decide) (findCourseIdAux_slash_digits (d :: rest) h)
    have hmatch := matchCoursesHere_at (d :: rest) d rest rfl h
    show findCourseIdAux
        ('/' :: 'c' :: 'o' :: 'u' :: 'r' :: 's' :: 'e' :: 's' :: '/' :: (d :: rest))
      = some (d :: rest)
    rw [findCourseIdAux_cons, hinner]
    exact hmatch
  | cons c l1 ih =>
    show findCourseIdAux (c :: (l1 ++ (coursePat ++ ds))) = some ds
    rw [findCourseIdAux_cons, ih]

theorem findCourseId_of_shape (host ds : String)
    (hne : ds.data ≠ []) (hdig : ∀ c ∈ ds.data, c.isDigit = true)
    (hhost : ∀ c ∈ host.data, c ≠ '\n') :
    findCourseId ("https://" ++ host ++ "/courses/" ++ ds) = some ds := by
  unfold findCourseId
  have hnl : ∀ c ∈ ("https://" ++ host ++ "/courses/" ++ ds).data, decide (c ≠ '\n') = true := by
    intro c hc
    have hc' : c ∈ (("https://".data ++ host.data) ++ "/courses/".data) ++ ds.data := hc
    simp only [List.mem_append] at hc'
    rcases hc' with ((h1 | h1) | h1) | h1
    · exact (by decide : ∀ x ∈ "https://".data, decide (x ≠ '\n') = true) c h1
    · simp [hhost c h1]
    · exact (by decide : ∀ x ∈ "/courses/".data, decide (x ≠ '\n') = true) c h1
    · have := hdig c h1
      simp only [decide_eq_true_eq]
      intro hEq
      rw [hEq] at this
      exact absurd this (by decide)
  rw [List.takeWhile_eq_self_iff.mpr hnl]
  have hdata : ("https://" ++ host ++ "/courses/" ++ ds).data
      = ("https://".data ++ host.data) ++ (coursePat ++ ds.data) := by
    show (("https://".data ++ host.data) ++ "/courses/".data) ++ ds.data
        = ("https://".data ++ host.data) ++ (coursePat ++ ds.data)
    rw [List.append_assoc]
    rfl
  rw [hdata, findCourseIdAux_main ("https://".data ++ host.data) ds.data hne hdig]
  rfl

theorem urljoin_base_courses (ds : String)
    (hdig : ∀ c ∈ ds.data, c.isDigit = true) :
    urljoinModel BASE_URL ("courses/" ++ ds ++ "/assignments")
      = "https://www.gradescope.com/courses/" ++ ds ++ "/assignments" := by
  have hne : "courses/" ++ ds ++ "/assignments" ≠ "" := by
    intro hEq
    have h2 : ("courses/" ++ ds ++ "/assignments").data = [] := by rw [hEq]
    have h3 : 'c' :: (("ourses/".data ++ ds.data) ++ "/assignments".data) = ([] : List Char) := h2
    cases h3
  have hcolon : (':' : Char) ∉ ("courses/" ++ ds ++ "/assignments").data := by
    intro hmem
    have hmem' : ':' ∈ ("courses/".data ++ ds.data) ++ "/assignments".data := hmem
    simp only [List.mem_append] at hmem'
    rcases hmem' with (h1 | h1) | h1
    · exact absurd h1 (by decide)
    · have := hdig ':' h1
      exact absurd this (by decide)
    · exact absurd h1 (by decide)
  have hsub : strContains ("courses/" ++ ds ++ "/assignments") "://" = false :=
    hasSubChars_head_notMem ':' ['/', '/'] _ hcolon
  have hhead : ("courses/" ++ ds ++ "/assignments").data.head? = some 'c' := rfl
  unfold urljoinModel
  rw [if_neg hne]
  rw [hsub, hhead]
  simp only [Bool.false_eq_true, if_false, reduceCtorEq, reduceIte]
  rfl

/-- One-step unfolding of the normalization loop. -/
theorem normalizeCourseUrl_eq (url : String) (inputs : List String) :
    normalizeCourseUrl url inputs
      = if strContains url "assignments" then some url
        else
          match findCourseId url, inputs with
          | some cid, _ => some (urljoinModel BASE_URL ("courses/" ++ cid ++ "/assignments"))
          | none, [] => none
          | none, next :: rest => normalizeCourseUrl next rest := by
  cases hf : findCourseId url <;> cases inputs <;>
    simp only [normalizeCourseUrl, hf]

/-- C1 counterexample: for the input `https://example.com/courses/123`
(host `example.com`), normalization yields the fixed gradescope host, not
the input host. -/
theorem normalizeCourseUrl_host_changed :
    normalizeCourseUrl "https://example.com/courses/123" []
        = some "https://www.gradescope.com/courses/123/assignments"
      ∧ ("https://www.gradescope.com/courses/123/assignments" : String)
        ≠ "https://example.com/courses/123/assignments" :=
  ⟨rfl, by decide⟩

/-- C1 (amended): for an input of the form `https://host/courses/<digits>`
not containing `"assignments"`, normalization yields
`https://www.gradescope.com/courses/<digits>/assignments` — the fixed
base host, regardless of the input host; a URL already containing
`"assignments"` is returned unchanged; and on an unparsable URL the loop
re-prompts (processes the next user input) rather than raising. -/
theorem normalizeCourseUrl_spec :
    (∀ (host ds : String) (inputs : List String),
      ds.data ≠ [] → (∀ c ∈ ds.data, c.isDigit = true) →
      (∀ c ∈ host.data, c ≠ '\n') →
      strContains ("https://" ++ host ++ "/courses/" ++ ds) "assignments" = false →
      normalizeCourseUrl ("https://" ++ host ++ "/courses/" ++ ds) inputs
        = some ("https://www.gradescope.com/courses/" ++ ds ++ "/assignments"))
    ∧ (∀ (u : String) (inputs : List String),
      strContains u "assignments" = true → normalizeCourseUrl u inputs = some u)
    ∧ (∀ (u next : String) (rest : List String),
      strContains u "assignments" = false → findCourseId u = none →
      normalizeCourseUrl u (next :: rest) = normalizeCourseUrl next rest) := by
  refine ⟨?_, ?_, ?_⟩
  · intro host ds inputs hne hdig hhost hnosub
    rw [normalizeCourseUrl_eq, hnosub, findCourseId_of_shape host ds hne hdig hhost]
    simp only [Bool.false_eq_true, if_false]
    rw [urljoin_base_courses ds hdig]
  · intro u inputs hsub
    rw [normalizeCourseUrl_eq, hsub]
    simp
  · intro u next rest hnosub hfind
    rw [normalizeCourseUrl_eq, hnosub, hfind]
    simp

theorem normalizeCourseUrl_spec_witness :
    normalizeCourseUrl ("https://" ++ "example.com" ++ "/courses/" ++ "123") []
        = some ("https://www.gradescope.com/courses/" ++ "123" ++ "/assignments")
      ∧ normalizeCourseUrl "https://x/assignments" [] = some "https://x/assignments"
      ∧ normalizeCourseUrl "garbage" ["https://x/assignments"]
        = normalizeCourseUrl "https://x/assignments" [] :=
  ⟨normalizeCourseUrl_spec.1 "example.com" "123" [] (by decide) (by decide)
     (by decide) (by decide),
   normalizeCourseUrl_spec.2.1 "https://x/assignments" [] (by decide),
   normalizeCourseUrl_spec.2.2 "garbage" "https://x/assignments" [] (by decide) (by decide)⟩

/-! ## C8: crawl export paths -/

/-- C8: during a crawl, each exported assignment is written to the
output folder joined with the scraped link text, verbatim, plus
`".pdf"`; a listing page with two assignment links produces exactly two
export attempts, each printing one PDF under the corresponding name. -/
theorem crawl_two_assignments (pageOf : String → Node) (folder courseUrl : String)
    (st : DriverState) (a1 a2 : Assignment)
    (hscrape : scrapeAssignments (pageOf courseUrl) = .ok [a1, a2])
    (h1 : is_online_assignment (pageOf (outlineUrl a1)) = true)
    (h2 : is_online_assignment (pageOf (outlineUrl a2)) = true) :
    crawlCore pageOf folder courseUrl st =
      .ok { dom := pageOf (outlineUrl a2),
            scripts := st.scripts ++ [CSS_UPDATE, CSS_UPDATE],
            printed := st.printed ++ [joinPath folder (a1.name ++ ".pdf"),
                                      joinPath folder (a2.name ++ ".pdf")] } := by
  unfold crawlCore
  simp only [visitDriver]
  rw [hscrape]
  simp only [List.foldl_cons, List.foldl_nil, crawlStep, visitDriver,
    export_current_page, h1, h2, if_true]
  simp [List.append_assoc]

theorem crawl_two_assignments_witness :
    scrapeAssignments ((fun u => if u = "L" then listingPage else onlinePage) "L")
        = .ok [⟨"/courses/1/assignments/11", "HW 1"⟩, ⟨"/courses/1/assignments/12", "HW 2"⟩]
      ∧ crawlCore (fun u => if u = "L" then listingPage else onlinePage) "pdf" "L"
          ⟨plainPage, [], []⟩
        = .ok { dom := (fun u => if u = "L" then listingPage else onlinePage)
                  (outlineUrl ⟨"/courses/1/assignments/12", "HW 2"⟩),
                scripts := [CSS_UPDATE, CSS_UPDATE],
                printed := [joinPath "pdf" ("HW 1" ++ ".pdf"),
                            joinPath "pdf" ("HW 2" ++ ".pdf")] } :=
  ⟨rfl,
   crawl_two_assignments (fun u => if u = "L" then listingPage else onlinePage) "pdf" "L"
     ⟨plainPage, [], []⟩ ⟨"/courses/1/assignments/11", "HW 1"⟩
     ⟨"/courses/1/assignments/12", "HW 2"⟩ rfl (by decide) (by decide)⟩

/-! ## C9: single-assignment output filename -/

theorem takeWhile_append_of_all {p : Char → Bool} (l1 l2 : List Char)
    (h : ∀ c ∈ l1, p c = true) :
    (l1 ++ l2).takeWhile p = l1 ++ l2.takeWhile p := by
  induction l1 with
  | nil => rfl
  | cons c rest ih =>
    have hc : p c = true := h c (by simp)
    simp [List.takeWhile_cons, hc, ih (fun d hd => h d (by simp [hd]))]

/-- C9 counterexample: the input name `".pdf"` ends in `".pdf"` but is
not used unchanged — `os.path.splitext` treats the leading dot as part
of the stem, so its extension is `""` and `".pdf"` is appended again. -/
theorem singleMode_dotpdf_changed :
    (".pdf" : String) = "" ++ ".pdf"
      ∧ splitext ".pdf" = (".pdf", "")
      ∧ singleModeFilename ".pdf" = ".pdf.pdf"
      ∧ (".pdf.pdf" : String) ≠ ".pdf" := by
  refine ⟨rfl, by decide, rfl, by decide⟩

/-- C9 (amended): `".pdf"` is appended iff the `splitext` extension of
the input name differs from `".pdf"`, and the output path is the result
joined under the output folder.  A name `base ++ ".pdf"` whose final
component has a non-empty stem (here: `base` nonempty without `'.'` or
`'/'`) is used unchanged, and a dot-free `base` gets `".pdf"` appended;
but a final component consisting only of the extension (like `".pdf"`
itself) is not left unchanged. -/
theorem singleMode_spec (folder base : String) (hne : base ≠ "")
    (hdot : ∀ c ∈ base.data, c ≠ '.') (hslash : ∀ c ∈ base.data, c ≠ '/') :
    splitext (base ++ ".pdf") = (base, ".pdf")
    ∧ singleModePdfPath folder (base ++ ".pdf") = joinPath folder (base ++ ".pdf")
    ∧ (splitext base).2 = ""
    ∧ singleModePdfPath folder base = joinPath folder (base ++ ".pdf")
    ∧ (∀ name : String, (splitext name).2 = ".pdf" →
        singleModePdfPath folder name = joinPath folder name)
    ∧ (∀ name : String, (splitext name).2 ≠ ".pdf" →
        singleModePdfPath folder name = joinPath folder (name ++ ".pdf")) := by
  obtain ⟨b, bs, hbd⟩ : ∃ b bs, base.data = b :: bs := by
    cases hb : base.data with
    | nil =>
      exfalso
      apply hne
      cases base
      simp_all
    | cons b bs => exact ⟨b, bs, rfl⟩
  have hnodot : ∀ c ∈ base.data.reverse, decide (c ≠ '.') = true := by
    intro c hc
    simp only [List.mem_reverse] at hc
    simp [hdot c hc]
  have hnoslash : ∀ c ∈ base.data.reverse, decide (c ≠ '/') = true := by
    intro c hc
    simp only [List.mem_reverse] at hc
    simp [hslash c hc]
  have hbdot : (decide (b = '.')) = false := by
    have := hdot b (by rw [hbd]; simp)
    simp [this]
  have hall : ∀ c ∈ 'f' :: 'd' :: 'p' :: '.' :: base.data.reverse,
      decide (c ≠ '/') = true := by
    intro c hc
    simp only [List.mem_cons] at hc
    rcases hc with rfl | rfl | rfl | rfl | hc
    · decide
    · decide
    · decide
    · decide
    · exact hnoslash c hc
  have e1 : (base ++ ".pdf").data = base.data ++ ['.', 'p', 'd', 'f'] := rfl
  have e2 : (base.data ++ ['.', 'p', 'd', 'f']).reverse
      = 'f' :: 'd' :: 'p' :: '.' :: base.data.reverse := by
    simp
  have e3 : ('f' :: 'd' :: 'p' :: '.' :: base.data.reverse).takeWhile (· ≠ '/')
      = 'f' :: 'd' :: 'p' :: '.' :: base.data.reverse :=
    List.takeWhile_eq_self_iff.mpr hall
  have e4 : ('f' :: 'd' :: 'p' :: '.' :: base.data.reverse).reverse
      = base.data ++ ['.', 'p', 'd', 'f'] := by
    simp
  have e5 : (base.data ++ ['.', 'p', 'd', 'f']).takeWhile (· = '.') = [] := by
    rw [hbd]
    simp [List.takeWhile_cons, hbdot]
  have e7 : ('f' :: 'd' :: 'p' :: '.' :: base.data.reverse).takeWhile (· ≠ '.')
      = ['f', 'd', 'p'] := by
    simp [List.takeWhile_cons]
  have hlen : ¬ (['f', 'd', 'p'] : List Char).length
      = (base.data ++ ['.', 'p', 'd', 'f']).length := by
    rw [hbd]
    simp
  have hsplit1 : splitext (base ++ ".pdf") = (base, ".pdf") := by
    simp only [splitext, e1, e2, e3, e4, e5, List.length_nil, List.drop_zero, e7]
    rw [if_neg hlen]
    have hlen2 : (base.data ++ ['.', 'p', 'd', 'f']).length
        - ((['f', 'd', 'p'] : List Char).length + 1) = base.data.length := by
      simp
    rw [hlen2, List.take_left]
    rfl
  have hsplit3 : splitext base = (base, "") := by
    have e5' : base.data.takeWhile (· = '.') = [] := by
      rw [hbd]
      simp [List.takeWhile_cons, hbdot]
    simp only [splitext, List.takeWhile_eq_self_iff.mpr hnoslash, List.reverse_reverse,
      e5', List.length_nil, List.drop_zero, List.takeWhile_eq_self_iff.mpr hnodot]
    simp
  refine ⟨hsplit1, ?_, ?_, ?_, ?_, ?_⟩
  · unfold singleModePdfPath singleModeFilename
    rw [hsplit1]
    simp
  · rw [hsplit3]
  · unfold singleModePdfPath singleModeFilename
    rw [hsplit3]
    simp
  · intro name hext
    unfold singleModePdfPath singleModeFilename
    rw [hext]
    simp
  · intro name hext
    unfold singleModePdfPath singleModeFilename
    rw [if_pos hext]

theorem singleMode_spec_witness :
    ("hw" : String) ≠ ""
      ∧ splitext ("hw" ++ ".pdf") = ("hw", ".pdf")
      ∧ singleModePdfPath "pdf" ("hw" ++ ".pdf") = joinPath "pdf" ("hw" ++ ".pdf")
      ∧ singleModePdfPath "pdf" "hw" = joinPath "pdf" ("hw" ++ ".pdf") :=
  have h := singleMode_spec "pdf" "hw" (by decide)
    (by decide) (by decide)
  ⟨by decide, h.1, h.2.1, h.2.2.2.1⟩

/-! ## C6: cookie persistence round-trip -/

theorem hexVal_hexDigitChar (n : Nat) (h : n < 16) :
    hexVal (hexDigitChar n) = some n := by
  interval_cases n <;> decide

theorem parseStringBody_step_quote (rest : List Char) :
    parseStringBody ('"' :: rest) = some ([], rest) := by
  unfold parseStringBody
  rfl

theorem parseStringBody_step_escQuote (X : List Char) :
    parseStringBody ('\\' :: '"' :: X)
      = (parseStringBody X).map (fun p => ('"' :: p.1, p.2)) := by
  conv_lhs => rw [parseStringBody.eq_def]
  rfl

theorem parseStringBody_step_escBack (X : List Char) :
    parseStringBody ('\\' :: '\\' :: X)
      = (parseStringBody X).map (fun p => ('\\' :: p.1, p.2)) := by
  conv_lhs => rw [parseStringBody.eq_def]
  rfl

theorem parseStringBody_step_escU (h1 h2 h3 h4 : Char) (X : List Char) :
    parseStringBody ('\\' :: 'u' :: h1 :: h2 :: h3 :: h4 :: X)
      = match hex4 h1 h2 h3 h4 with
        | none => none
        | some code => (parseStringBody X).map (fun p => (Char.ofNat code :: p.1, p.2)) := by
  conv_lhs => rw [parseStringBody.eq_def]
  rfl

theorem parseStringBody_step_plain (c : Char) (X : List Char)
    (hq : ¬ c = '"') (hb : ¬ c = '\\') (hc32 : ¬ c.toNat < 32) :
    parseStringBody (c :: X) = (parseStringBody X).map (fun p => (c :: p.1, p.2)) := by
  conv_lhs => rw [parseStringBody.eq_def]
  simp only [if_neg hq, if_neg hb, if_neg hc32]

theorem hex4_control (t : Nat) (ht : t < 32) :
    hex4 '0' '0' (hexDigitChar (t / 16)) (hexDigitChar (t % 16)) = some t := by
  have hv1 : hexVal (hexDigitChar (t / 16)) = some (t / 16) :=
    hexVal_hexDigitChar _ (by omega)
  have hv2 : hexVal (hexDigitChar (t % 16)) = some (t % 16) :=
    hexVal_hexDigitChar _ (by omega)
  unfold hex4
  rw [hv1, hv2]
  show some (((0 * 16 + 0) * 16 + t / 16) * 16 + t % 16) = some t
  congr 1
  omega

theorem parseStringBody_escape (s rest : List Char) :
    parseStringBody ((s.map escapeChar).flatten ++ '"' :: rest) = some (s, rest) := by
  induction s with
  | nil =>
    show parseStringBody ('"' :: rest) = some ([], rest)
    exact parseStringBody_step_quote rest
  | cons c cs ih =>
    simp only [List.map_cons, List.flatten_cons, List.append_assoc]
    by_cases hq : c = '"'
    · subst hq
      show parseStringBody ('\\' :: '"' :: ((cs.map escapeChar).flatten ++ '"' :: rest))
        = some ('"' :: cs, rest)
      rw [parseStringBody_step_escQuote, ih]
      rfl
    · by_cases hb : c = '\\'
      · subst hb
        show parseStringBody ('\\' :: '\\' :: ((cs.map escapeChar).flatten ++ '"' :: rest))
          = some ('\\' :: cs, rest)
        rw [parseStringBody_step_escBack, ih]
        rfl
      · by_cases hc32 : c.toNat < 32
        · have he : escapeChar c
              = ['\\', 'u', '0', '0', hexDigitChar (c.toNat / 16),
                 hexDigitChar (c.toNat % 16)] := by
            unfold escapeChar
            rw [if_neg hq, if_neg hb, if_pos hc32]
          rw [he]
          simp only [List.cons_append, List.nil_append]
          rw [parseStringBody_step_escU, hex4_control c.toNat hc32]
          simp only [ih, Option.map_some]
          rw [Char.ofNat_toNat]
          rfl
        · have he : escapeChar c = [c] := by
            unfold escapeChar
            rw [if_neg hq, if_neg hb, if_neg hc32]
          rw [he]
          simp only [List.cons_append, List.nil_append]
          rw [parseStringBody_step_plain c _ hq hb hc32, ih]
          rfl

/-- String-level corollary for quoted literals produced by the dumper. -/
theorem parseStringBody_quoted (k : String) (rest : List Char) :
    parseStringBody (escapeString k ++ '"' :: rest) = some (k.data, rest) :=
  parseStringBody_escape k.data rest

theorem skipWs_cons_of_neg (c : Char) (l : List Char) (h : isJsonWs c = false) :
    skipWs (c :: l) = c :: l := by
  simp [skipWs, List.dropWhile_cons, h]

theorem parseMembers_skip (fuel : Nat) (c : Char) (l : List Char)
    (h : isJsonWs c = true) : parseMembers fuel (c :: l) = parseMembers fuel l := by
  cases fuel with
  | zero => rfl
  | succ f =>
    have hs : skipWs (c :: l) = skipWs l := by
      simp [skipWs, List.dropWhile_cons, h]
    conv_lhs => rw [parseMembers.eq_def]
    conv_rhs => rw [parseMembers.eq_def]
    simp only [hs]

theorem jsonDumpPairs_length (m : List (String × String)) :
    m.length ≤ (jsonDumpPairs m).length := by
  induction m with
  | nil => simp [jsonDumpPairs]
  | cons kv m' ih =>
    obtain ⟨k, v⟩ := kv
    cases m' with
    | nil => simp [jsonDumpPairs, quoteChars]
    | cons p m'' =>
      simp only [jsonDumpPairs, quoteChars, List.length_append, List.length_cons] at *
      omega

theorem skipWs_dumpPairs (k v : String) (m' : List (String × String)) (X : List Char) :
    skipWs (jsonDumpPairs ((k, v) :: m') ++ X) = jsonDumpPairs ((k, v) :: m') ++ X := by
  cases m' with
  | nil => exact skipWs_cons_of_neg '"' _ (by decide)
  | cons p m'' => exact skipWs_cons_of_neg '"' _ (by decide)

theorem head_dumpPairs (k v : String) (m' : List (String × String)) (X : List Char) :
    (jsonDumpPairs ((k, v) :: m') ++ X).head? = some '"' := by
  cases m' with
  | nil => rfl
  | cons p m'' => rfl

theorem parseMembers_dump (m : List (String × String)) (fuel : Nat) (tail : List Char)
    (hne : m ≠ []) (hfuel : m.length ≤ fuel) (htail : (skipWs tail).head? ≠ some ',') :
    parseMembers fuel (jsonDumpPairs m ++ tail) = some (m, skipWs tail) := by
  have hsq : ∀ X : List Char, skipWs ('"' :: X) = '"' :: X :=
    fun X => skipWs_cons_of_neg _ X (by decide)
  have hsc : ∀ X : List Char, skipWs (':' :: X) = ':' :: X :=
    fun X => skipWs_cons_of_neg _ X (by decide)
  have hscm : ∀ X : List Char, skipWs (',' :: X) = ',' :: X :=
    fun X => skipWs_cons_of_neg _ X (by decide)
  have hsp : ∀ X : List Char, skipWs (' ' :: X) = skipWs X :=
    fun X => by simp [skipWs, List.dropWhile_cons, isJsonWs]
  induction m generalizing fuel tail with
  | nil => exact absurd rfl hne
  | cons kv m' ih =>
    obtain ⟨k, v⟩ := kv
    obtain ⟨f, rfl⟩ : ∃ f, fuel = f + 1 := by
      cases fuel with
      | zero => simp at hfuel
      | succ f => exact ⟨f, rfl⟩
    cases m' with
    | nil =>
      rw [show jsonDumpPairs [(k, v)]
            = quoteChars k ++ ':' :: ' ' :: quoteChars v from rfl]
      rw [parseMembers.eq_def]
      simp only [quoteChars, List.cons_append, List.append_assoc, List.nil_append,
        hsq, hsc, hsp, parseStringBody_quoted, List.head?_cons, List.tail_cons]
      rw [if_neg htail]
    | cons p m'' =>
      rw [show jsonDumpPairs ((k, v) :: p :: m'')
            = quoteChars k ++ ':' :: ' ' :: quoteChars v ++ ',' :: ' '
              :: jsonDumpPairs (p :: m'') from rfl]
      rw [parseMembers.eq_def]
      simp only [quoteChars, List.cons_append, List.append_assoc, List.nil_append,
        hsq, hsc, hsp, hscm, parseStringBody_quoted, List.head?_cons, List.tail_cons]
      rw [parseMembers_skip f ' ' _ (by decide)]
      rw [ih f tail (by simp) (by simp at hfuel ⊢; omega) htail]
      rfl

theorem parseObjChars_dump (m : List (String × String)) :
    parseObjChars (jsonDumpObj m).data = some m := by
  cases m with
  | nil => decide
  | cons kv m' =>
    obtain ⟨k, v⟩ := kv
    show parseObjChars ('{' :: (jsonDumpPairs ((k, v) :: m') ++ ['}'])) = some ((k, v) :: m')
    rw [parseObjChars.eq_def]
    rw [skipWs_cons_of_neg '{' _ (by decide)]
    simp only [skipWs_dumpPairs, head_dumpPairs, reduceCtorEq, if_false, reduceIte]
    rw [parseMembers_dump ((k, v) :: m') _ ['}'] (by simp)
      (by have := jsonDumpPairs_length ((k, v) :: m'); simp only [List.length_append]; omega)
      (by decide)]
    simp [skipWs, List.dropWhile_cons, isJsonWs]

theorem dictInsert_fresh (acc : List (String × String)) (kv : String × String)
    (h : kv.1 ∉ acc.map Prod.fst) : dictInsert acc kv = acc ++ [kv] := by
  unfold dictInsert
  rw [if_neg]
  intro hany
  simp only [List.any_eq_true, beq_iff_eq] at hany
  obtain ⟨p, hp, hpe⟩ := hany
  exact h (by simpa [hpe.symm] using List.mem_map_of_mem Prod.fst hp)

theorem foldl_dictInsert_nodup (l acc : List (String × String))
    (h : ((acc ++ l).map Prod.fst).Nodup) : l.foldl dictInsert acc = acc ++ l := by
  induction l generalizing acc with
  | nil => simp
  | cons kv l' ih =>
    have hfresh : kv.1 ∉ acc.map Prod.fst := by
      intro hmem
      rw [List.map_append] at h
      have hdisj := (List.nodup_append.mp h).2.2
      exact hdisj hmem (by simp)
    rw [List.foldl_cons, dictInsert_fresh acc kv hfresh]
    have hre : (acc ++ [kv]) ++ l' = acc ++ kv :: l' := by simp
    rw [ih (acc ++ [kv]) (by rw [hre]; exact h), hre]

theorem dictOfPairs_nodup (m : List (String × String))
    (h : (m.map Prod.fst).Nodup) : dictOfPairs m = m := by
  unfold dictOfPairs
  simpa using foldl_dictInsert_nodup m [] (by simpa using h)

/-- C6: saving a flat string-to-string cookie mapping with distinct keys
to the cookie file and loading it back yields the original mapping. -/
theorem cookie_roundtrip (fs : Files) (p : String) (m : List (String × String))
    (hnd : (m.map Prod.fst).Nodup) :
    loadCookies (saveCookies fs p m) p = some m := by
  unfold loadCookies saveCookies readFile writeFile
  rw [show List.lookup p ((p, jsonDumpObj m)
        :: List.filter (fun q => q.1 != p) fs) = some (jsonDumpObj m) from by
      simp [List.lookup]]
  show jsonLoadObj (jsonDumpObj m) = some m
  unfold jsonLoadObj
  rw [parseObjChars_dump m]
  simp [dictOfPairs_nodup m hnd]

theorem cookie_roundtrip_witness :
    ((([("session", "abc"), ("token", "de\"f\\g")] : List (String × String)).map
        Prod.fst).Nodup)
      ∧ loadCookies (saveCookies [("other.txt", "x")] "cookies.json"
            [("session", "abc"), ("token", "de\"f\\g")]) "cookies.json"
          = some [("session", "abc"), ("token", "de\"f\\g")] :=
  ⟨by decide,
   cookie_roundtrip [("other.txt", "x")] "cookies.json"
     [("session", "abc"), ("token", "de\"f\\g")] (by decide)⟩

end GS



